import Mathlib

/-!
Verification of the conversation-reconstruction engine of
`src/find_conversations.py` (shallow embedding).

JSON log records are modelled by the `Record` structure below; Python's
falsy-string convention (`r.get('uuid')` is falsy for a missing key and for
the empty string) is modelled by plain `String` fields where the code only
ever tests truthiness, and by `Option String` fields where the code tests
key presence (`'sessionId' in record`).  Python dicts keyed by strings are
modelled as association lists in insertion order, where an insertion appends
and a lookup takes the last matching binding (so a later insertion
overwrites an earlier one, as in Python).  Python string operations are
modelled on `List Char` (`String.data`), matching CPython semantics on the
ASCII inputs the program manipulates.
-/

namespace FindConv

open List

/-- One option of an `AskUserQuestion` question (`opt.get('label','')`,
`opt.get('description','')`). -/
structure QOption where
  label : String := ""
  description : String := ""
deriving DecidableEq

/-- One question of an `AskUserQuestion` invocation (`q.get('question','')`,
`q.get('options',[])`). -/
structure Question where
  question : String := ""
  options : List QOption := []
deriving DecidableEq

/-- The `input` dict of a `tool_use` block; each field models
`inp.get(key, '')` (respectively `[]` for `questions`), so a missing key is
the empty string. -/
structure ToolInput where
  file_path : String := ""
  query : String := ""
  url : String := ""
  description : String := ""
  command : String := ""
  pattern : String := ""
  content : String := ""
  questions : List Question := []
deriving DecidableEq

/-- An element of a `tool_result`'s `content` list: a dict of type `text`
(carrying its `text` value, `''` when missing), or anything else (a non-dict
or a dict of another type), which `parse_ask_answer` ignores. -/
inductive RPart where
  | text (t : String)
  | other
deriving DecidableEq

/-- The `content` value of a `tool_result` block: a string, a list of parts,
or any other JSON value (which `parse_ask_answer` rejects). -/
inductive ResultContent where
  | str (s : String)
  | parts (ps : List RPart)
  | other
deriving DecidableEq

/-- An element of a message's `content` list.  `tool_use` carries its `id`,
`name` and `input` (each `''`/default when the key is missing);
`tool_result` carries its `tool_use_id` and `content`; `other` stands for a
non-dict part or a dict of any other type (for example `thinking`), which
every consumer either skips or treats as "not a text/tool part". -/
inductive ContentPart where
  | text (t : String)
  | tool_use (id : String) (name : String) (input : ToolInput)
  | tool_result (tool_use_id : String) (rcontent : ResultContent)
  | other
deriving DecidableEq

/-- The `content` value of a message: absent/null, a string, a list of
parts, or any other truthy JSON value. -/
inductive Content where
  | null
  | str (s : String)
  | parts (ps : List ContentPart)
  | other
deriving DecidableEq

/-- A record's `message` dict: `msg.get('role')` (modelled `''` when
missing) and `msg.get('content')`. -/
structure Message where
  role : String := ""
  content : Content := Content.null
deriving DecidableEq

/-- One deserialized log record.  `uuid`, `parentUuid` and `requestId` are
only ever read through truthiness-respecting accessors in the source, so a
missing key is modelled as `""`; `sessionId`, `cwd` and `timestamp` are
tested for key presence (`'sessionId' in record`), so they are `Option`s;
`message` presence (`'message' in record`) is an `Option` as well. -/
structure Record where
  uuid : String := ""
  parentUuid : String := ""
  requestId : String := ""
  sessionId : Option String := Option.none
  cwd : Option String := Option.none
  timestamp : Option String := Option.none
  isMeta : Bool := false
  message : Option Message := Option.none
deriving DecidableEq

/-! ## Winning-path resolver (`find_winning_path`, lines 143-184) -/

/-- The sort key `r.get('timestamp', '')` used on terminals. -/
def tsKey (r : Record) : String := r.timestamp.getD ""

/-- The comparison underlying `terminals.sort(key=lambda r: r.get('timestamp',''))`:
Python sorts strings lexicographically. -/
def tsLe (a b : Record) : Bool := decide (tsKey a ≤ tsKey b)

/-- Lookup in the `by_uuid` dict built by
`{r['uuid']: r for r in all_records if r.get('uuid')}`: only records with a
truthy uuid are inserted, and a later record with the same uuid overwrites
an earlier one, so the lookup takes the last matching record. -/
def by_uuid_find (records : List Record) (u : String) : Option Record :=
  if u = "" then Option.none
  else (records.filter (fun r => r.uuid == u)).getLast?

/-- Membership of `u` in
`parent_uuids = {r['parentUuid'] for r in all_records if r.get('parentUuid')}`. -/
def is_parent_uuid (records : List Record) (u : String) : Bool :=
  records.any (fun r => r.parentUuid != "" && r.parentUuid == u)

/-- `terminals = [r for r in all_records if r.get('uuid') and r['uuid'] not in parent_uuids]`. -/
def terminals (records : List Record) : List Record :=
  records.filter (fun r => r.uuid != "" && !(is_parent_uuid records r.uuid))

/-- `terminals.sort(key=...); latest_terminal = terminals[-1]`: Python's sort
is stable and ascending, so `terminals[-1]` is the last element of the
stably sorted list. -/
def latest_terminal (records : List Record) : Option Record :=
  ((terminals records).mergeSort tsLe).getLast?

/-- The backward walk of lines 175-182 (`while current: add; look up; step to
parent`).  The source's `while` loop has no termination guard and diverges on
cyclic parent links; the embedding bounds it with explicit fuel, and
`records.length + 1` steps are enough on every acyclic input (each visited
uuid except possibly the last dangling one belongs to a distinct record).
The returned list holds the visited uuids in visit order; the source
collects them in a set, which the caller only queries for membership. -/
def walk_uuids : Nat → List Record → String → List String
  | 0, _, _ => []
  | fuel + 1, records, current =>
    if current = "" then []
    else
      current ::
        match by_uuid_find records current with
        | Option.none => []
        | Option.some rec => walk_uuids fuel records rec.parentUuid

/-- `find_winning_path` (lines 143-184): `None` when no record has a truthy
uuid or no terminal exists; otherwise the uuids visited walking back from
the latest terminal. -/
def find_winning_path (records : List Record) : Option (List String) :=
  if (records.filter (fun r => r.uuid != "")).isEmpty then Option.none
  else if (terminals records).isEmpty then Option.none
  else
    match latest_terminal records with
    | Option.none => Option.none
    | Option.some t => Option.some (walk_uuids (records.length + 1) records t.uuid)

/-! ## The caller's winning-path filter (`parse_conversation`, lines 224-238) -/

/-- The per-record condition of the filter loop: drop records without a
`message` or flagged `isMeta`; when `winning_uuids` is truthy (a non-`None`,
non-empty set) and the record has a truthy uuid, keep the record only when
its uuid is on the winning path. -/
def keep_record (winning : Option (List String)) (r : Record) : Bool :=
  if r.message.isNone || r.isMeta then false
  else
    match winning with
    | Option.none => true
    | Option.some w =>
      if !w.isEmpty && r.uuid != "" then w.contains r.uuid else true

/-- The `raw_records` list built by the filter loop. -/
def raw_records_of (records : List Record) (winning : Option (List String)) : List Record :=
  records.filter (keep_record winning)

/-- A concrete record whose declared parent id resolves to no record. -/
def dangling_rec : Record :=
  { uuid := "b", parentUuid := "p",
    message := Option.some { role := "user", content := Content.str "hi" } }

/-- Spec-side ancestor relation: `Ances records u v` holds when `v` lies on
the parent-link walk that starts at uuid `u` (each step moves from a
record's uuid to its non-empty `parentUuid`). -/
inductive Ances (records : List Record) : String → String → Prop where
  | refl (u : String) : Ances records u u
  | step {u v : String} {r : Record} (h : Ances records u v) (hr : r ∈ records)
      (huuid : r.uuid = v) (hp : r.parentUuid ≠ "") : Ances records u r.parentUuid

/-- Root record of the C1 witness tree. -/
def c1A : Record :=
  { uuid := "a", timestamp := Option.some "1",
    message := Option.some { role := "user", content := Content.str "root" } }

/-- Earlier-timestamp terminal of the C1 witness tree. -/
def c1B : Record := { uuid := "b", parentUuid := "a", timestamp := Option.some "2" }

/-- Later-timestamp terminal of the C1 witness tree. -/
def c1C : Record := { uuid := "c", parentUuid := "a", timestamp := Option.some "3" }

/-- Depth certificate for the C1 witness tree. -/
def c1depth : String → Nat := fun u => if u = "a" then 0 else 1

/-! ## Turn aggregation (`parse_conversation` phase 2, lines 260-294) -/

/-- Python truthiness of a message's `content` (`if not content: continue`):
`None`, the empty string and the empty list are falsy. -/
def content_truthy : Content → Bool
  | Content.null => false
  | Content.str s => s != ""
  | Content.parts ps => !ps.isEmpty
  | Content.other => true

/-- The mutable state of the grouping loop: the `turns` built so far, the
pending `current_req_id` (the source initialises it to `None` and resets it
to `None` on flush; it is only ever compared against a non-empty
`requestId`, so `""` models `None` faithfully) and the pending
`current_assistant_records` buffer. -/
structure AggState where
  turns : List (String × List Record) := []
  current_req_id : String := ""
  current_assistant_records : List Record := []
deriving DecidableEq

/-- `flush_assistant()`: append the pending assistant buffer (when
non-empty) as one turn and reset the pending state. -/
def flush_assistant (st : AggState) : AggState :=
  { turns := if st.current_assistant_records.isEmpty then st.turns
             else st.turns ++ [("assistant", st.current_assistant_records)],
    current_req_id := "", current_assistant_records := [] }

/-- One iteration of the grouping loop over `raw_records`. -/
def agg_step (st : AggState) (r : Record) : AggState :=
  match r.message with
  | Option.none => st
  | Option.some msg =>
    if !content_truthy msg.content then st
    else if msg.role = "assistant" then
      if r.requestId != "" && r.requestId == st.current_req_id then
        { st with current_assistant_records := st.current_assistant_records ++ [r] }
      else
        { flush_assistant st with
            current_req_id := r.requestId
            current_assistant_records := [r] }
    else if msg.role = "user" then
      { flush_assistant st with
        turns := (flush_assistant st).turns ++ [("user", [r])] }
    else st

/-- Phase 2 in full: fold the grouping loop over the records and flush the
trailing assistant buffer. -/
def group_turns (records : List Record) : List (String × List Record) :=
  (flush_assistant (records.foldl agg_step {})).turns

/-- An assistant record with truthy content and request-correlation id `q`. -/
def is_assistant_with (q : String) (r : Record) : Bool :=
  match r.message with
  | Option.some msg =>
    msg.role == "assistant" && content_truthy msg.content && r.requestId == q
  | Option.none => false

/-- A user record with truthy content. -/
def is_user_rec (r : Record) : Bool :=
  match r.message with
  | Option.some msg => msg.role == "user" && content_truthy msg.content
  | Option.none => false

/-- C4 witness records: two assistant records under correlation id `"r1"`,
one under `"r2"`, and one user record. -/
def c4a1 : Record :=
  { requestId := "r1",
    message := Option.some { role := "assistant", content := Content.str "one" } }

/-- Second assistant record of the C4 witness, same correlation id. -/
def c4a2 : Record :=
  { requestId := "r1",
    message := Option.some { role := "assistant", content := Content.str "two" } }

/-- Assistant record of the C4 witness under the other correlation id. -/
def c4a3 : Record :=
  { requestId := "r2",
    message := Option.some { role := "assistant", content := Content.str "three" } }

/-- User record of the C4 witness. -/
def c4u : Record :=
  { message := Option.some { role := "user", content := Content.str "hello" } }

/-! ## Python string helpers (modelled on `List Char`, i.e. `String.data`,
so that every operation is structurally recursive and kernel-computable) -/

/-- `sep.join(xs)`. -/
def pyJoin (sep : String) : List String → String
  | [] => ""
  | [x] => x
  | x :: y :: xs => x ++ sep ++ pyJoin sep (y :: xs)

/-- `str.strip()` on a char list (CPython strips unicode whitespace; the
inputs this program manipulates only carry ASCII whitespace, which
`Char.isWhitespace` covers). -/
def trimChars (cs : List Char) : List Char :=
  ((cs.dropWhile Char.isWhitespace).reverse.dropWhile Char.isWhitespace).reverse

/-- `s.strip()`. -/
def py_strip (s : String) : String := String.mk (trimChars s.data)

/-- `s.startswith(pat)`. -/
def py_startswith (s pat : String) : Bool := pat.data.isPrefixOf s.data

/-- Index of the first occurrence of `pat` in `s` (`s.find(pat)`, with `None`
for CPython's `-1`). -/
def substrIdxL (pat : List Char) : List Char → Option Nat
  | [] => if pat.isPrefixOf ([] : List Char) then Option.some 0 else Option.none
  | c :: t =>
    if pat.isPrefixOf (c :: t) then Option.some 0
    else (substrIdxL pat t).map (· + 1)

/-- `pat in s` (substring containment). -/
def py_contains (s pat : String) : Bool := (substrIdxL pat.data s.data).isSome

/-- `s.lower()` (CPython lowercases the full unicode range; `Char.toLower`
covers ASCII, which is all these markers use, and preserves length as the
source's index arithmetic assumes). -/
def py_lower (s : String) : String := String.mk (s.data.map Char.toLower)

/-! ## Message significance filter (`is_meaningful`, lines 35-46) -/

/-- `is_meaningful`: strip, then reject empty text and the known boilerplate
markers. -/
def is_meaningful (text : String) : Bool :=
  let t := py_strip text
  if t = "" then false
  else if py_startswith t "<command-name>" then false
  else if py_startswith t "<local-command-stdout>" then false
  else if py_startswith t "[Request interrupted" then false
  else true

/-! ## Annotation generation (`shorten_path` lines 48-55,
`generate_tool_annotation` lines 57-93) -/

/-- `shorten_path`, with the ambient `Path.home()` passed explicitly as
`home`. -/
def shorten_path (home fp : String) : String :=
  if fp = "" then ""
  else if py_startswith fp home then "~" ++ String.mk (fp.data.drop home.data.length)
  else fp

/-- Models `urlparse(url)` of the standard library as used on line 72-73:
the text after `"://"` up to (excluding) any query or fragment is
`netloc + path`; a url without a scheme separator is all path. -/
def url_netloc_path (url : String) : String :=
  match substrIdxL "://".data url.data with
  | Option.some i =>
    String.mk ((url.data.drop (i + 3)).takeWhile (fun c => c != '?' && c != '#'))
  | Option.none => String.mk (url.data.takeWhile (fun c => c != '?' && c != '#'))

/-- `generate_tool_annotation` (the name dispatch of lines 57-93); returns
`none` exactly for `AskUserQuestion`, which is rendered only as a Q&A
block. -/
def generate_tool_annot (home name : String) (inp : ToolInput) : Option String :=
  if name = "Read" then Option.some ("Read: " ++ shorten_path home inp.file_path)
  else if name = "Write" then Option.some ("Wrote: " ++ shorten_path home inp.file_path)
  else if name = "Edit" then Option.some ("Edited: " ++ shorten_path home inp.file_path)
  else if name = "WebSearch" then
    Option.some ("Searched web: \"" ++ inp.query ++ "\"")
  else if name = "WebFetch" then Option.some ("Fetched: " ++ url_netloc_path inp.url)
  else if name = "Task" then Option.some ("Launched agent: " ++ inp.description)
  else if name = "Bash" then
    Option.some ("Ran: `" ++
      (if inp.description != "" then inp.description
       else String.mk (inp.command.data.take 60) ++
         (if 60 < inp.command.data.length then "..." else "")) ++ "`")
  else if name = "Glob" then Option.some ("Found files: " ++ inp.pattern)
  else if name = "Grep" then Option.some ("Searched code: \"" ++ inp.pattern ++ "\"")
  else if name = "EnterPlanMode" then Option.some "Entered plan mode"
  else if name = "ExitPlanMode" then Option.some "Exited plan mode"
  else if name = "AskUserQuestion" then Option.none
  else Option.some ("Used tool: " ++ name)

/-! ## Answer parsing (`parse_ask_answer`, lines 95-125) -/

/-- `re.findall(r'"([^"]*)"="([^"]*)"', s)` with explicit fuel.  The regex
engine scans left to right: at a `"` it takes the (deterministic) greedy
match — text to the next quote, `="`, text to the next quote, `"` — and
continues after it; on failure it advances one character.  Every recursive
call drops at least one character of the list, so fuel equal to the list
length never runs out (each step keeps fuel ≥ length). -/
def findPairsF : Nat → List Char → List (String × String)
  | 0, _ => []
  | _, [] => []
  | fuel + 1, c :: rest =>
    if c = '\"' then
      match rest.dropWhile (fun x => x != '\"') with
      | '\"' :: '=' :: '\"' :: rest2 =>
        match rest2.dropWhile (fun x => x != '\"') with
        | '\"' :: rest4 =>
          (String.mk (rest.takeWhile (fun x => x != '\"')),
            String.mk (rest2.takeWhile (fun x => x != '\"'))) :: findPairsF fuel rest4
        | _ => findPairsF fuel rest
      | _ => findPairsF fuel rest
    else findPairsF fuel rest

/-- All `"a"="b"` pairs of `s`, left to right. -/
def findPairs (cs : List Char) : List (String × String) := findPairsF cs.length cs

/-- One `if end_idx > 0: after = after[:end_idx].strip()` trimming step of
lines 116-119. -/
def trim_marker (after marker : String) : String :=
  match substrIdxL marker.data after.data with
  | Option.some i => if 0 < i then py_strip (String.mk (after.data.take i)) else after
  | Option.none => after

/-- The string-typed core of `parse_ask_answer` (after the content list has
been joined): extract joined `"k"="v"` answers, else the decline/clarify
analysis, else `None`. -/
def parse_ask_answer_str (s : String) : Option String :=
  let pairsResult : Option String :=
    if py_contains s "User has answered your questions:" then
      let pairs := findPairs s.data
      if pairs.isEmpty then Option.none
      else Option.some (pyJoin "; " (pairs.map (fun p => py_strip p.2)))
    else Option.none
  match pairsResult with
  | Option.some r => Option.some r
  | Option.none =>
    if py_contains s "doesn't want to proceed" ||
        py_contains (py_lower s) "user wants to clarify" then
      match substrIdxL ("the user said:".data) (py_lower s).data with
      | Option.some i =>
        let after0 := py_strip (String.mk (s.data.drop (i + "the user said:".length)))
        let after1 := trim_marker after0 "\n    Questions asked:"
        let after2 := trim_marker after1 "\n\n    This means"
        if after2 != "" &&
            !(py_contains (py_lower after2) "user wants to clarify these questions")
        then Option.some after2
        else Option.some "[User requested clarification]"
      | Option.none => Option.some "[User requested clarification]"
    else Option.none

/-- `parse_ask_answer`: a list content is joined from its text parts; a
non-string non-list content parses to `None`. -/
def parse_ask_answer (c : ResultContent) : Option String :=
  match c with
  | ResultContent.str s => parse_ask_answer_str s
  | ResultContent.parts ps =>
    parse_ask_answer_str (pyJoin "\n" (ps.filterMap (fun p =>
      match p with
      | RPart.text t => Option.some t
      | RPart.other => Option.none)))
  | ResultContent.other => Option.none

/-! ## Q&A blocks and enriched messages -/

/-- A Q&A block: the `questions` input of one `AskUserQuestion` invocation
and its resolved answer (`None` when no parsed answer exists). -/
structure QA where
  questions : List Question := []
  answer : Option String := Option.none
deriving DecidableEq

/-- The `lines` list built by `format_question_answer` (lines 127-141)
before the final join; the answer line carries the parsed answer only when
it is truthy (non-`None`, non-empty), else the explicit marker. -/
def format_qa_lines (qa : QA) : List String :=
  (qa.questions.flatMap (fun q =>
    ("> **Question:** " ++ q.question) ::
      q.options.map (fun opt => "> - **" ++ opt.label ++ "** — " ++ opt.description)))
  ++ [">"]
  ++ [match qa.answer with
      | Option.some a =>
        if a != "" then "> **Answer:** " ++ a
        else "> **Answer:** [No answer recorded]"
      | Option.none => "> **Answer:** [No answer recorded]"]

/-- `format_question_answer`: the joined block. -/
def format_question_answer (qa : QA) : String := pyJoin "\n" (format_qa_lines qa)

/-- A captured file-write (`write_contents` entry of lines 345-350). -/
structure WriteContent where
  file_path : String
  content : String
  line_count : Nat
deriving DecidableEq

/-- One enriched message of `parse_conversation`'s output.  User messages
carry no enrichment lists (the source's user dicts lack those keys and every
reader uses `.get(key, [])`, so empty lists model them faithfully). -/
structure EMessage where
  role : String
  text : String
  timestamp : Option String := Option.none
  tool_annots : List String := []
  question_answers : List QA := []
  write_contents : List WriteContent := []
deriving DecidableEq

/-- Lookup in a Python dict modelled as an insertion-ordered association
list: the last binding wins (assignment overwrites). -/
def dlookup {α : Type} (l : List (String × α)) (k : String) : Option α :=
  ((l.filter (fun p => p.1 == k)).getLast?).map Prod.snd

/-- `k in d` for the same dict model. -/
def dmem {α : Type} (l : List (String × α)) (k : String) : Bool :=
  l.any (fun p => p.1 == k)

/-! ## Phase 1: collect `AskUserQuestion` invocations and answers
(lines 240-258) -/

/-- The two dicts of phase 1. -/
structure AskState where
  ask_questions : List (String × ToolInput) := []
  ask_answers : List (String × Option String) := []
deriving DecidableEq

/-- Phase 1, one content part: record a question invocation by id, or parse
a result addressed to an already-seen question. -/
def phase1_part (st : AskState) (part : ContentPart) : AskState :=
  match part with
  | ContentPart.tool_use pid name inp =>
    if name = "AskUserQuestion" then
      { st with ask_questions := st.ask_questions ++ [(pid, inp)] }
    else st
  | ContentPart.tool_result tid c =>
    if dmem st.ask_questions tid then
      { st with ask_answers := st.ask_answers ++ [(tid, parse_ask_answer c)] }
    else st
  | _ => st

/-- Phase 1, one record: only list contents are scanned. -/
def phase1_record (st : AskState) (r : Record) : AskState :=
  match r.message with
  | Option.some msg =>
    match msg.content with
    | Content.parts ps => ps.foldl phase1_part st
    | _ => st
  | Option.none => st

/-- Phase 1 over the filtered records. -/
def collect_ask (raw : List Record) : AskState := raw.foldl phase1_record {}

/-! ## Phase 3: build enriched messages (lines 296-411) -/

/-- The four accumulator lists of an assistant turn. -/
structure AsstAcc where
  text_parts : List String := []
  tool_annots : List String := []
  question_answers : List QA := []
  write_contents : List WriteContent := []
deriving DecidableEq

/-- Phase 3, one content part of an assistant turn: text accumulates;
a tool use contributes its annotation, its Q&A block (for
`AskUserQuestion`, answered from phase 1's dict) and its captured content
(for `Write`, only when the content is non-empty and at most 200 lines by
the `count('\\n') + 1` metric); `tool_result` and thinking parts are
skipped. -/
def asst_part_step (home : String) (ask_answers : List (String × Option String))
    (acc : AsstAcc) (part : ContentPart) : AsstAcc :=
  match part with
  | ContentPart.text t => { acc with text_parts := acc.text_parts ++ [t] }
  | ContentPart.tool_use pid name inp =>
    let acc1 := match generate_tool_annot home name inp with
      | Option.some ann => { acc with tool_annots := acc.tool_annots ++ [ann] }
      | Option.none => acc
    let acc2 := if name = "AskUserQuestion" then
        { acc1 with question_answers := acc1.question_answers ++
            [{ questions := inp.questions,
               answer := (match dlookup ask_answers pid with
                 | Option.some a => a
                 | Option.none => Option.none) }] }
      else acc1
    if name = "Write" then
      let line_count := if inp.content != "" then inp.content.data.count '\n' + 1 else 0
      if inp.content ≠ "" ∧ line_count ≤ 200 then
        { acc2 with write_contents := acc2.write_contents ++
            [{ file_path := inp.file_path, content := inp.content,
               line_count := line_count }] }
      else acc2
    else acc2
  | ContentPart.tool_result _ _ => acc
  | ContentPart.other => acc

/-- Phase 3, one record of an assistant turn: a string content is one text
part; a list content is scanned part by part; other contents are skipped. -/
def asst_record_step (home : String) (ask_answers : List (String × Option String))
    (acc : AsstAcc) (r : Record) : AsstAcc :=
  match r.message with
  | Option.none => acc
  | Option.some msg =>
    match msg.content with
    | Content.str s => { acc with text_parts := acc.text_parts ++ [s] }
    | Content.parts ps => ps.foldl (asst_part_step home ask_answers) acc
    | _ => acc

/-- `records[0].get('timestamp')` of a turn (turn record lists are never
empty by construction). -/
def head_timestamp (records : List Record) : Option String :=
  match records with
  | r :: _ => r.timestamp
  | [] => Option.none

/-- Build one assistant message from a turn's records: joined significant
text, annotations, Q&A blocks and captured writes; kept only when it has
meaningful text, an annotation or a Q&A block. -/
def build_assistant (home : String) (ask_answers : List (String × Option String))
    (records : List Record) : Option EMessage :=
  let acc := records.foldl (asst_record_step home ask_answers) {}
  let text := pyJoin "\n\n" (acc.text_parts.filter (fun t => py_strip t != ""))
  if is_meaningful text || !acc.tool_annots.isEmpty || !acc.question_answers.isEmpty then
    Option.some
      { role := "assistant", text := text, timestamp := head_timestamp records,
        tool_annots := acc.tool_annots, question_answers := acc.question_answers,
        write_contents := acc.write_contents }
  else Option.none

/-- Build one user message from a turn's record: with a list content, drop
the message when every part is text or a tool result answering a known
question invocation and the joined text is not meaningful; in every case
drop non-meaningful text. -/
def build_user (ask_ids : List String) (records : List Record) : Option EMessage :=
  match records with
  | [] => Option.none
  | record :: _ =>
    match record.message with
    | Option.none => Option.none
    | Option.some msg =>
      match msg.content with
      | Content.parts ps =>
        let text_parts := ps.filterMap (fun p => match p with
          | ContentPart.text t => Option.some t
          | _ => Option.none)
        let only_ask := ps.all (fun p => match p with
          | ContentPart.text _ => true
          | ContentPart.tool_result tid _ => ask_ids.contains tid
          | _ => false)
        let text := pyJoin "\n\n" text_parts
        if only_ask && !(is_meaningful text) then Option.none
        else if !(is_meaningful text) then Option.none
        else Option.some { role := "user", text := text, timestamp := record.timestamp }
      | Content.str s2 =>
        if is_meaningful s2 then
          Option.some { role := "user", text := s2, timestamp := record.timestamp }
        else Option.none
      | _ => Option.none

/-- Phases 1-3 of `parse_conversation` over the filtered records: the
enriched message list. -/
def build_messages (home : String) (raw : List Record) : List EMessage :=
  let st := collect_ask raw
  let ask_ids := st.ask_questions.map Prod.fst
  (group_turns raw).filterMap (fun turn =>
    if turn.1 = "assistant" then build_assistant home st.ask_answers turn.2
    else build_user ask_ids turn.2)

/-! ## Spec-side write-capture predicate (claim C6) -/

/-- The source's line metric: `content.count('\\n') + 1` for non-empty
content, `0` for empty content. -/
def write_line_count (s : String) : Nat :=
  if s ≠ "" then s.data.count '\n' + 1 else 0

/-- Captured for inline rendering iff non-empty and at most 200 lines. -/
def write_captured (s : String) : Bool :=
  s != "" && decide (write_line_count s ≤ 200)

/-- An assistant record holding one `AskUserQuestion` invocation. -/
def ask_rec (q : String) (qin : ToolInput) (ts : Option String) : Record :=
  { timestamp := ts,
    message := Option.some
      { role := "assistant",
        content := Content.parts [ContentPart.tool_use q "AskUserQuestion" qin] } }

/-- A user record holding one tool result addressed to invocation `q`. -/
def result_rec (q : String) (c : ResultContent) : Record :=
  { message := Option.some
      { role := "user",
        content := Content.parts [ContentPart.tool_result q c] } }

/-- The assistant message the pipeline builds for `ask_rec` with resolved
answer `ans`. -/
def asst_qa_msg (qin : ToolInput) (ts : Option String) (ans : Option String) : EMessage :=
  { role := "assistant", text := "", timestamp := ts, tool_annots := [],
    question_answers := [{ questions := qin.questions, answer := ans }],
    write_contents := [] }

/-- An assistant record holding one `Write` invocation. -/
def write_rec (tid fp s : String) (ts : Option String) : Record :=
  { timestamp := ts,
    message := Option.some
      { role := "assistant",
        content := Content.parts [ContentPart.tool_use tid "Write"
          { file_path := fp, content := s }] } }

/-- The question input of the C5 counterexample. -/
def cqin : ToolInput := { questions := [{ question := "Pick one" }] }

/-! ## Loader metadata scalars (`parse_conversation`, lines 199-221 and 417) -/

/-- The three running scalars of the loader's single pass. -/
structure MetaAcc where
  session_id : Option String := Option.none
  project_path : Option String := Option.none
  last_timestamp : Option String := Option.none
deriving DecidableEq

/-- One record of the metadata pass: each present key overwrites the
running scalar, whatever its value (including the empty string). -/
def meta_step (acc : MetaAcc) (r : Record) : MetaAcc :=
  let acc1 := match r.sessionId with
    | Option.some v => { acc with session_id := Option.some v }
    | Option.none => acc
  let acc2 := match r.cwd with
    | Option.some v => { acc1 with project_path := Option.some v }
    | Option.none => acc1
  match r.timestamp with
  | Option.some v => { acc2 with last_timestamp := Option.some v }
  | Option.none => acc2

/-- The loader's metadata extraction over the whole record sequence. -/
def extract_meta (records : List Record) : MetaAcc := records.foldl meta_step {}

/-- `'session_id': session_id or jsonl_path.stem` (line 417): a falsy
(absent or empty) extracted value falls back to the file stem. -/
def final_session_id (acc : MetaAcc) (stem : String) : String :=
  match acc.session_id with
  | Option.some v => if v ≠ "" then v else stem
  | Option.none => stem

/-- First record of the C7 counterexample: sessionId `"A"`. -/
def c7r1 : Record := { sessionId := Option.some "A" }

/-- Second record of the C7 counterexample: sessionId present but empty. -/
def c7r2 : Record := { sessionId := Option.some "" }

/-! ## Export target selection (`export_conversation`, lines 579-603) -/

/-- Outcome of target selection: in the first two cases the source prints a
report and returns without producing a document. -/
inductive ExportSel where
  | notFound
  | ambiguous (all : List String)
  | selected (stem : String)
deriving DecidableEq

/-- The `matches` list of lines 581-590: every non-`agent-` log stem that
equals the identifier or starts with it. -/
def select_matches (stems : List String) (sid : String) : List String :=
  stems.filter (fun stem =>
    !(py_startswith stem "agent-") && (stem == sid || py_startswith stem sid))

/-- Lines 592-603: no match reports not-found; more than one match reports
the full candidate list; a unique match is selected (`matches[0]`). -/
def export_select (stems : List String) (sid : String) : ExportSel :=
  let ms := select_matches stems sid
  if ms.isEmpty then ExportSel.notFound
  else if 1 < ms.length then ExportSel.ambiguous ms
  else ExportSel.selected (ms.headD "")

/-! ## Document renderer (`export_conversation`, lines 610-688) -/

/-- Python's f-string rendering of a possibly-`None` value (`str(None)` is
`"None"`, which is what line 621 prints for a missing project). -/
def py_opt_str (o : Option String) : String :=
  match o with
  | Option.some v => v
  | Option.none => "None"

/-- Split a char list at every occurrence of `c` (`s.split(c)`). -/
def splitOnChar (c : Char) (cs : List Char) : List (List Char) :=
  cs.foldr (fun ch acc =>
    if ch = c then [] :: acc
    else
      match acc with
      | h :: t => (ch :: h) :: t
      | [] => [[ch]]) [[]]

/-- `s.split(c)`. -/
def py_split (c : Char) (s : String) : List String := (splitOnChar c s.data).map String.mk

/-- `s.splitlines()` for newline-separated content (no trailing empty
piece; the empty string yields no lines). -/
def py_splitlines (s : String) : List String :=
  let ps := py_split '\n' s
  match ps.getLast? with
  | Option.some "" => ps.dropLast
  | _ => ps

/-- Models `Path(fp).suffix.lstrip('.')` of lines 676-677: the extension of
the final path component when its last dot is neither leading nor trailing,
else the empty string. -/
def path_ext (fp : String) : String :=
  let base := (py_split '/' fp).getLastD ""
  let segs := py_split '.' base
  if 2 ≤ segs.length ∧ segs.getLastD "" ≠ "" ∧ ¬(segs.length = 2 ∧ segs.headD "" = "")
  then segs.getLastD "" else ""

/-- Concatenation of a sequence of `f.write` calls. -/
def pyConcat (xs : List String) : String := xs.foldl (fun a b => a ++ b) ""

/-- The collapsible file-content block of lines 678-682. -/
def render_wc_block (wc : WriteContent) : String :=
  "> <details><summary>File content (" ++ toString wc.line_count ++
    " lines)</summary>\n>\n" ++
  "> ```" ++ path_ext wc.file_path ++ "\n" ++
  pyConcat ((py_splitlines wc.content).map (fun l => "> " ++ l ++ "\n")) ++
  "> ```\n> </details>\n"

/-- One assistant turn's body (lines 648-683): optional text block, Q&A
blocks, then the annotation lines, each `Wrote:` annotation followed by its
captured content block looked up by shortened path (later same-path entries
overwrite, as the source's dict build does). -/
def render_assistant (home : String) (msg : EMessage) : String :=
  (if py_strip msg.text ≠ "" then "**Assistant:**\n\n" ++ msg.text ++ "\n\n" else "") ++
  pyConcat (msg.question_answers.map (fun qa => format_question_answer qa ++ "\n\n")) ++
  (if msg.tool_annots.isEmpty then ""
   else
    pyConcat (msg.tool_annots.map (fun ann =>
      "> _" ++ ann ++ "_\n" ++
      (if py_startswith ann "Wrote: " then
        match dlookup (msg.write_contents.map (fun wc => (shorten_path home wc.file_path, wc)))
            (String.mk (ann.data.drop 7)) with
        | Option.some wc => render_wc_block wc
        | Option.none => ""
       else ""))) ++ "\n")

/-- The table of contents (lines 624-636): one numbered, truncated,
anchor-linked preview line per user message. -/
def render_toc (messages : List EMessage) : String :=
  (messages.foldl (fun (acc : String × Nat) msg =>
    if msg.role = "user" then
      (acc.1 ++ toString (acc.2 + 1) ++ ". [" ++
        ((fun first_line => String.mk (first_line.data.take 100) ++
            (if 100 < first_line.data.length then "..." else ""))
          ((py_split '\n' (py_strip msg.text)).headD "")) ++
        "](#user-" ++ toString (acc.2 + 1) ++ ")\n", acc.2 + 1)
    else acc) ("", 0)).1

/-- The body (lines 640-685): anchored user headings, assistant bodies, and
a horizontal separator after every message. -/
def render_body (home : String) (messages : List EMessage) : String :=
  (messages.foldl (fun (acc : String × Nat) msg =>
    if msg.role = "user" then
      (acc.1 ++ "## <a id=\"user-" ++ toString (acc.2 + 1) ++ "\"></a>User #" ++
        toString (acc.2 + 1) ++ "\n\n" ++ msg.text ++ "\n\n" ++ "---\n\n", acc.2 + 1)
    else if msg.role = "assistant" then
      (acc.1 ++ render_assistant home msg ++ "---\n\n", acc.2)
    else (acc.1 ++ "---\n\n", acc.2)) ("", 0)).1

/-- The header metadata and resolved turn sequence the renderer consumes
(the `conv` dict fields used by lines 617-688). -/
structure Conv where
  first_message : String
  last_timestamp : Option String
  project : Option String
  message_count : Nat
  messages : List EMessage
deriving DecidableEq

/-- The whole document written by lines 617-685, as one string: header,
table of contents, separator, body.  A pure function of the turn sequence
and header metadata: the source consults no clock or other ambient state
while writing (the only timestamp in the output is the supplied
`last_timestamp`). -/
def render_conversation (home : String) (conv : Conv) : String :=
  "# Conversation: " ++ conv.first_message ++ "\n\n" ++
  "**Date:** " ++ py_opt_str conv.last_timestamp ++ "\n" ++
  "**Project:** " ++ py_opt_str conv.project ++ "\n" ++
  "**Messages:** " ++ toString conv.message_count ++ "\n\n" ++
  "## Table of Contents\n\n" ++
  render_toc conv.messages ++
  "\n---\n\n" ++
  render_body home conv.messages

/-- A concrete conversation for the C9 witness. -/
def c9conv : Conv :=
  { first_message := "fix bug", last_timestamp := Option.some "2024-01-01T00:00:00Z",
    project := Option.some "/home/u/proj", message_count := 2,
    messages :=
      [{ role := "user", text := "fix bug", timestamp := Option.some "2024-01-01T00:00:00Z" },
        { role := "assistant", text := "done",
          tool_annots := ["Wrote: ~/proj/a.py"],
          write_contents := [{ file_path := "/home/u/proj/a.py", content := "x = 1\n",
                               line_count := 2 }] }] }

/-! ## Claims C2, C10, C3 -/

theorem keep_record_none_eq :
    keep_record Option.none = fun r => r.message.isSome && !r.isMeta := by
  funext r
  cases h : r.message <;> cases hm : r.isMeta <;> simp [keep_record, h, hm]

/-- C2: when no record carries an id, or no terminal exists, `find_winning_path`
returns the no-path signal `None`, and the caller's filter then keeps every
record that has a `message` payload and is not meta (no winning-path
filtering happens). -/
theorem C2_no_tree_degenerate_flat (records : List Record)
    (h : (∀ r ∈ records, r.uuid = "") ∨ (terminals records).isEmpty = true) :
    find_winning_path records = Option.none ∧
      raw_records_of records (find_winning_path records) =
        records.filter (fun r => r.message.isSome && !r.isMeta) := by
  have hnone : find_winning_path records = Option.none := by
    unfold find_winning_path
    rcases h with h | h
    · have hf : (records.filter (fun r => r.uuid != "")).isEmpty = true := by
        simp only [List.isEmpty_eq_true, List.filter_eq_nil_iff]
        intro r hr
        simp [h r hr]
      simp [hf]
    · by_cases hg : (records.filter (fun r => r.uuid != "")).isEmpty = true <;>
        simp [hg, h]
  refine ⟨hnone, ?_⟩
  rw [hnone]
  unfold raw_records_of
  rw [keep_record_none_eq]

/-- C2 witness: a record set with messages but no uuids at all. -/
theorem C2_no_tree_degenerate_flat_witness :
    find_winning_path [{ message := Option.some { role := "user", content := Content.str "hi" } },
        { isMeta := true, message := Option.some { role := "user", content := Content.str "m" } }] =
        Option.none ∧
      raw_records_of
          [{ message := Option.some { role := "user", content := Content.str "hi" } },
            { isMeta := true, message := Option.some { role := "user", content := Content.str "m" } }]
          (find_winning_path
            [{ message := Option.some { role := "user", content := Content.str "hi" } },
              { isMeta := true, message := Option.some { role := "user", content := Content.str "m" } }]) =
        List.filter (fun r => r.message.isSome && !r.isMeta)
          [{ message := Option.some { role := "user", content := Content.str "hi" } },
            { isMeta := true, message := Option.some { role := "user", content := Content.str "m" } }] :=
  C2_no_tree_degenerate_flat _ (Or.inl (by decide))

/-- C10 (implicit): the winning-path filter only excludes records that carry
an id: a record without a uuid, with a `message` payload and not meta, is
kept whatever the winning path is (including when a winning path exists and
the record is therefore not on it). -/
theorem C10_uuidless_records_always_kept (records : List Record)
    (winning : Option (List String)) (r : Record)
    (h1 : r ∈ records) (h2 : r.message.isSome = true) (h3 : r.isMeta = false)
    (h4 : r.uuid = "") :
    r ∈ raw_records_of records winning := by
  unfold raw_records_of
  rw [List.mem_filter]
  refine ⟨h1, ?_⟩
  rcases Option.isSome_iff_exists.mp h2 with ⟨m, hm⟩
  cases winning <;> simp [keep_record, hm, h3, h4]

/-- C10 witness: a uuid-less record survives the filter next to a concrete
winning path that cannot contain it. -/
theorem C10_uuidless_records_always_kept_witness :
    ({ message := Option.some { role := "user", content := Content.str "hi" } } : Record) ∈
      raw_records_of
        [{ uuid := "w", message := Option.some { role := "assistant", content := Content.str "a" } },
          { message := Option.some { role := "user", content := Content.str "hi" } }]
        (Option.some ["w"]) :=
  C10_uuidless_records_always_kept _ _ _ (by decide) (by decide) (by decide) (by decide)

/-- C3: when the backward walk reaches a record whose declared parent id is
absent from the uuid index, it visits that dangling parent id and stops, and
`find_winning_path` returns the partial path collected so far as the winning
path.  The first conjunct states the walk's local stopping behaviour at any
such record; the second instantiates it through `find_winning_path` when the
chosen terminal itself declares the dangling parent. -/
theorem C3_walk_stops_at_missing_parent (records : List Record) (t r : Record)
    (P : String)
    (h1 : terminals records = [t])
    (h2 : by_uuid_find records t.uuid = Option.some r)
    (h3 : r.parentUuid = P) (h4 : P ≠ "")
    (h5 : by_uuid_find records P = Option.none) :
    (∀ fuel u r2, u ≠ "" → by_uuid_find records u = Option.some r2 →
        r2.parentUuid ≠ "" → by_uuid_find records r2.parentUuid = Option.none →
        walk_uuids (fuel + 2) records u = [u, r2.parentUuid]) ∧
      find_winning_path records = Option.some [t.uuid, P] := by
  have hwalk : ∀ fuel u r2, u ≠ "" → by_uuid_find records u = Option.some r2 →
      r2.parentUuid ≠ "" → by_uuid_find records r2.parentUuid = Option.none →
      walk_uuids (fuel + 2) records u = [u, r2.parentUuid] := by
    intro fuel u r2 hu hfind hp habs
    show walk_uuids (fuel + 1 + 1) records u = [u, r2.parentUuid]
    rw [walk_uuids]
    simp only [hu, if_false, hfind]
    rw [walk_uuids]
    simp [hp, habs]
  refine ⟨hwalk, ?_⟩
  have htmem : t ∈ terminals records := by rw [h1]; exact List.mem_singleton_self t
  have htrec : t ∈ records ∧ (t.uuid != "" && !(is_parent_uuid records t.uuid)) = true :=
    List.mem_filter.mp htmem
  have htu : t.uuid ≠ "" := by
    have := htrec.2
    simp only [Bool.and_eq_true, bne_iff_ne, ne_eq] at this
    exact this.1
  have hfilter : t ∈ records.filter (fun r => r.uuid != "") :=
    List.mem_filter.mpr ⟨htrec.1, by simp [htu]⟩
  have hg1 : (records.filter (fun r => r.uuid != "")).isEmpty = false := by
    rw [List.isEmpty_eq_false]
    exact List.ne_nil_of_mem hfilter
  have hg2 : (terminals records).isEmpty = false := by
    rw [List.isEmpty_eq_false, h1]
    simp
  have hlen : ∃ n, records.length = n + 1 := by
    cases hrec : records with
    | nil => rw [hrec] at htrec; exact absurd htrec.1 (List.not_mem_nil t)
    | cons a l => exact ⟨l.length, rfl⟩
  rcases hlen with ⟨n, hn⟩
  have hlatest : latest_terminal records = Option.some t := by
    unfold latest_terminal
    rw [h1, List.mergeSort_singleton]
    rfl
  unfold find_winning_path
  rw [hg1, hg2, hlatest]
  simp only [Bool.false_eq_true, if_false]
  rw [hn]
  rw [hwalk n t.uuid r htu h2 (by rw [h3]; exact h4) (by rw [h3]; exact h5), h3]

/-! ## Claim C1: the resolver picks the latest terminal and returns its
ancestor chain -/

theorem Ances_trans {records : List Record} {u v w : String}
    (h1 : Ances records u v) (h2 : Ances records v w) : Ances records u w := by
  induction h2 with
  | refl => exact h1
  | step _ hr huuid hp ih => exact Ances.step ih hr huuid hp

theorem uuid_inj {records : List Record}
    (hD : (records.map Record.uuid).Nodup) {q r : Record}
    (hq : q ∈ records) (hr : r ∈ records) (h : q.uuid = r.uuid) : q = r :=
  List.inj_on_of_nodup_map hD hq hr h

theorem by_uuid_find_eq {records : List Record}
    (hD : (records.map Record.uuid).Nodup) {r : Record} {u : String}
    (hr : r ∈ records) (hu : r.uuid = u) (hne : u ≠ "") :
    by_uuid_find records u = Option.some r := by
  unfold by_uuid_find
  rw [if_neg hne]
  have hfil : records.filter (fun q => q.uuid == u) = [r] := by
    induction records with
    | nil => exact absurd hr (List.not_mem_nil r)
    | cons a l ih =>
      rw [List.map_cons, List.nodup_cons] at hD
      by_cases hau : a.uuid = u
      · have hra : r = a := by
          rcases List.mem_cons.mp hr with rfl | hrl
          · rfl
          · exfalso
            apply hD.1
            rw [hau, ← hu]
            exact List.mem_map_of_mem Record.uuid hrl
        subst hra
        have hnil : l.filter (fun q => q.uuid == u) = [] := by
          rw [List.filter_eq_nil_iff]
          intro q hql hq
          apply hD.1
          simp only [beq_iff_eq] at hq
          rw [hau, ← hq]
          exact List.mem_map_of_mem Record.uuid hql
        simp [List.filter_cons, hau, hnil]
      · have hrl : r ∈ l := by
          rcases List.mem_cons.mp hr with rfl | hrl
          · exact absurd hu hau
          · exact hrl
        have hcond : (a.uuid == u) = false := by simp [hau]
        simp [List.filter_cons, hcond, ih hD.2 hrl]
  rw [hfil]
  rfl

theorem Ances_iff_of_root {records : List Record}
    (hD : (records.map Record.uuid).Nodup) {r : Record} {u : String}
    (hr : r ∈ records) (hu : r.uuid = u) (hroot : r.parentUuid = "") (v : String) :
    Ances records u v ↔ v = u := by
  constructor
  · intro h
    induction h with
    | refl => rfl
    | step _ hq huuid hp ih =>
      subst ih
      have := uuid_inj hD hq hr (by rw [huuid, hu])
      subst this
      exact absurd hroot hp
  · rintro rfl
    exact Ances.refl _

theorem Ances_iff_of_step {records : List Record}
    (hD : (records.map Record.uuid).Nodup) {r : Record} {u : String}
    (hr : r ∈ records) (hu : r.uuid = u) (hp : r.parentUuid ≠ "") (v : String) :
    Ances records u v ↔ (v = u ∨ Ances records r.parentUuid v) := by
  constructor
  · intro h
    induction h with
    | refl => exact Or.inl rfl
    | step _ hq huuid hpq ih =>
      rcases ih with rfl | hA
      · have := uuid_inj hD hq hr (by rw [huuid, hu])
        subst this
        exact Or.inr (Ances.refl _)
      · exact Or.inr (Ances.step hA hq huuid hpq)
  · rintro (rfl | hA)
    · exact Ances.refl _
    · exact Ances_trans (Ances.step (Ances.refl u) hr hu hp) hA

theorem walk_uuids_empty (f : Nat) (records : List Record) :
    walk_uuids f records "" = [] := by
  cases f <;> simp [walk_uuids]

theorem length_filter_lt {α : Type} {p q : α → Bool} (l : List α)
    (himp : ∀ a, p a = true → q a = true) (a : α) (ha : a ∈ l)
    (hqa : q a = true) (hpa : p a = false) :
    (l.filter p).length < (l.filter q).length := by
  have hsub : l.filter p <+ l.filter q := List.monotone_filter_right l himp
  refine Nat.lt_of_le_of_ne hsub.length_le ?_
  intro heq
  have : l.filter p = l.filter q := hsub.eq_of_length heq
  have hmem : a ∈ l.filter p := this ▸ List.mem_filter.mpr ⟨ha, hqa⟩
  have := (List.mem_filter.mp hmem).2
  rw [hpa] at this
  exact Bool.false_ne_true this

/-- The fueled backward walk from a record's uuid computes exactly the
ancestor relation once the fuel exceeds the number of records of strictly
smaller depth (an acyclicity certificate). -/
theorem walk_mem_iff (records : List Record) (depth : String → Nat)
    (hN : ∀ r ∈ records, r.uuid ≠ "")
    (hD : (records.map Record.uuid).Nodup)
    (hP : ∀ r ∈ records, r.parentUuid ≠ "" → ∃ p, p ∈ records ∧ p.uuid = r.parentUuid)
    (hA : ∀ r ∈ records, r.parentUuid ≠ "" → depth r.parentUuid < depth r.uuid) :
    ∀ f u r, r ∈ records → r.uuid = u →
      (records.filter (fun q => decide (depth q.uuid < depth u))).length + 1 ≤ f →
      ∀ v, (v ∈ walk_uuids f records u ↔ Ances records u v) := by
  intro f
  induction f with
  | zero => intro u r _ _ hf; omega
  | succ f ih =>
    intro u r hr hu hf v
    have hune : u ≠ "" := hu ▸ hN r hr
    have hfind : by_uuid_find records u = Option.some r := by_uuid_find_eq hD hr hu hune
    rw [walk_uuids]
    simp only [hune, if_false, hfind]
    by_cases hp : r.parentUuid = ""
    · rw [hp, walk_uuids_empty]
      rw [Ances_iff_of_root hD hr hu hp v]
      simp
    · obtain ⟨pr, hpr, hpu⟩ := hP r hr hp
      have hdepth : depth r.parentUuid < depth u := hu ▸ hA r hr hp
      have hrank :
          (records.filter (fun q => decide (depth q.uuid < depth r.parentUuid))).length <
            (records.filter (fun q => decide (depth q.uuid < depth u))).length := by
        refine length_filter_lt records ?_ pr hpr ?_ ?_
        · intro a ha
          simp only [decide_eq_true_eq] at ha ⊢
          omega
        · simp only [decide_eq_true_eq, hpu]
          exact hdepth
        · simp [hpu]
      have hf' :
          (records.filter (fun q => decide (depth q.uuid < depth r.parentUuid))).length + 1 ≤ f := by
        omega
      rw [List.mem_cons, ih r.parentUuid pr hpr hpu hf' v]
      exact (Ances_iff_of_step hD hr hu hp v).symm

theorem exists_append_of_getLast? {α : Type} {l : List α} {a : α}
    (h : l.getLast? = some a) : ∃ l', l = l' ++ [a] := by
  induction l with
  | nil => exact absurd h (by simp)
  | cons x l ih =>
    cases l with
    | nil =>
      simp only [List.getLast?_singleton, Option.some.injEq] at h
      exact ⟨[], by simp [h]⟩
    | cons y l' =>
      rw [List.getLast?_cons_cons] at h
      obtain ⟨l'', hl⟩ := ih h
      exact ⟨x :: l'', by rw [List.cons_append, ← hl]⟩

theorem tsLe_trans : ∀ a b c : Record, tsLe a b → tsLe b c → tsLe a c := by
  intro a b c hab hbc
  simp only [tsLe, decide_eq_true_eq] at hab hbc ⊢
  exact le_trans hab hbc

theorem tsLe_total : ∀ a b : Record, tsLe a b || tsLe b a := by
  intro a b
  simp only [tsLe, Bool.or_eq_true, decide_eq_true_eq]
  exact le_total _ _

theorem pairwise_tsLe_getLast {l : List Record} {t : Record}
    (hs : l.Pairwise (fun a b => tsLe a b = true))
    (ht : l.getLast? = some t) : ∀ x ∈ l, tsKey x ≤ tsKey t := by
  induction l with
  | nil => intro x hx; exact absurd hx (List.not_mem_nil x)
  | cons a l ih =>
    rw [List.pairwise_cons] at hs
    intro x hx
    cases l with
    | nil =>
      simp only [List.getLast?_singleton, Option.some.injEq] at ht
      subst ht
      rcases List.mem_singleton.mp hx with rfl
      exact le_refl _
    | cons y l' =>
      rw [List.getLast?_cons_cons] at ht
      rcases List.mem_cons.mp hx with rfl | hxl
      · have htmem : t ∈ y :: l' := List.mem_of_getLast?_eq_some ht
        have := hs.1 t htmem
        simpa only [tsLe, decide_eq_true_eq] using this
      · exact ih hs.2 ht x hxl

/-- In a duplicate-free list, everything that appears strictly after the
element the stable sort puts last has a strictly smaller key. -/
theorem sorted_last_latest {l : List Record} {t s2 : Record}
    (hnd : l.Nodup)
    (hlast : (l.mergeSort tsLe).getLast? = some t)
    (pre mid post : List Record)
    (hdec : l = pre ++ t :: (mid ++ s2 :: post)) : tsKey s2 < tsKey t := by
  by_contra hcon
  have hle : tsKey t ≤ tsKey s2 := not_lt.mp hcon
  have htle : tsLe t s2 = true := by
    simp only [tsLe, decide_eq_true_eq]
    exact hle
  have hsub0 : [t, s2] <+ t :: (mid ++ s2 :: post) := by
    refine List.Sublist.cons₂ t ?_
    rw [List.singleton_sublist]
    exact List.mem_append_right mid (List.mem_cons_self s2 post)
  have hsubl : [t, s2] <+ l := by
    rw [hdec]
    exact hsub0.trans (List.sublist_append_right pre _)
  have hts : t ≠ s2 := by
    have hnd2 : List.Nodup [t, s2] := hnd.sublist hsubl
    simp only [List.nodup_cons, List.mem_singleton] at hnd2
    exact hnd2.1
  have hpair : [t, s2] <+ l.mergeSort tsLe :=
    List.pair_sublist_mergeSort tsLe_trans tsLe_total htle hsubl
  have hndm : (l.mergeSort tsLe).Nodup := (List.mergeSort_perm l tsLe).symm.nodup hnd
  obtain ⟨s', hs'⟩ := exists_append_of_getLast? hlast
  rw [hs'] at hpair hndm
  rw [List.sublist_append_iff] at hpair
  obtain ⟨l₁, l₂, heq, h₁, h₂⟩ := hpair
  cases l₁ with
  | nil =>
    rw [List.nil_append] at heq
    rw [← heq] at h₂
    have := h₂.length_le
    simp at this
  | cons x xs =>
    cases xs with
    | nil =>
      simp only [List.cons_append, List.nil_append, List.cons.injEq] at heq
      obtain ⟨rfl, hl₂⟩ := heq
      rw [← hl₂] at h₂
      have : s2 ∈ [t] := (List.singleton_sublist).mp h₂
      exact hts (List.mem_singleton.mp this).symm
    | cons y ys =>
      simp only [List.cons_append, List.cons.injEq] at heq
      obtain ⟨rfl, rfl, hnil⟩ := heq
      have hys : ys = [] := (List.append_eq_nil.mp hnil.symm).1
      subst hys
      have hmem : t ∈ s' := h₁.subset (List.mem_cons_self t _)
      rw [List.nodup_append] at hndm
      exact hndm.2.2 hmem (List.mem_singleton_self t)

/-- C3 witness: a single terminal record whose parent id resolves to no
record; the winning path is the partial walk `[its-uuid, the-dangling-id]`. -/
theorem C3_walk_stops_at_missing_parent_witness :
    find_winning_path [dangling_rec] = Option.some ["b", "p"] :=
  (C3_walk_stops_at_missing_parent [dangling_rec] dangling_rec dangling_rec
    "p" rfl rfl rfl (by decide) rfl).2

/-- C1: on an acyclic parent-linked record set (non-empty distinct uuids,
resolvable parent links, a depth certificate of acyclicity) with at least
one terminal, `find_winning_path` selects the terminal with the greatest
timestamp — on equal timestamps the terminal encountered last in input
order wins (every terminal listed strictly after the chosen one is strictly
older) — and returns exactly the ids on the parent-link walk from that
terminal back to the root (`Ances`).  The final conjunct is the two-terminal
instance: whenever the terminals are some `t1` and `t2` with
`tsKey t1 < tsKey t2`, the `t2` path is selected, whatever the record
order. -/
theorem C1_resolver_selects_latest_terminal (records : List Record)
    (depth : String → Nat)
    (hN : ∀ r ∈ records, r.uuid ≠ "")
    (hD : (records.map Record.uuid).Nodup)
    (hP : ∀ r ∈ records, r.parentUuid ≠ "" → ∃ p, p ∈ records ∧ p.uuid = r.parentUuid)
    (hA : ∀ r ∈ records, r.parentUuid ≠ "" → depth r.parentUuid < depth r.uuid)
    (hT : (terminals records).isEmpty = false) :
    ∃ t W, latest_terminal records = Option.some t ∧
      find_winning_path records = Option.some W ∧
      t ∈ terminals records ∧
      (∀ s ∈ terminals records, tsKey s ≤ tsKey t) ∧
      (∀ pre mid post s2, terminals records = pre ++ t :: (mid ++ s2 :: post) →
        tsKey s2 < tsKey t) ∧
      (∀ v, v ∈ W ↔ Ances records t.uuid v) ∧
      (∀ t1 t2, t1 ∈ terminals records → t2 ∈ terminals records →
        (∀ s ∈ terminals records, s = t1 ∨ s = t2) → tsKey t1 < tsKey t2 → t = t2) := by
  have hTne : terminals records ≠ [] := (List.isEmpty_eq_false).mp hT
  have hmne : (terminals records).mergeSort tsLe ≠ [] := by
    intro h
    have hlen := congrArg List.length h
    simp only [List.length_mergeSort, List.length_nil] at hlen
    exact hTne (List.length_eq_zero.mp hlen)
  obtain ⟨t, ht⟩ : ∃ t, ((terminals records).mergeSort tsLe).getLast? = Option.some t := by
    cases hgl : ((terminals records).mergeSort tsLe).getLast? with
    | none =>
      have := List.getLast?_isSome.mpr hmne
      rw [hgl] at this
      exact absurd this (by simp)
    | some t => exact ⟨t, rfl⟩
  have htmem : t ∈ terminals records :=
    (List.mem_mergeSort).mp (List.mem_of_getLast?_eq_some ht)
  have htrec : t ∈ records := (List.mem_filter.mp htmem).1
  have htu : t.uuid ≠ "" := by
    have := (List.mem_filter.mp htmem).2
    simp only [Bool.and_eq_true, bne_iff_ne, ne_eq] at this
    exact this.1
  have hsorted : ((terminals records).mergeSort tsLe).Pairwise (fun a b => tsLe a b = true) :=
    List.sorted_mergeSort tsLe_trans tsLe_total (terminals records)
  have hmax : ∀ s ∈ terminals records, tsKey s ≤ tsKey t := by
    intro s hs
    exact pairwise_tsLe_getLast hsorted ht s ((List.mem_mergeSort).mpr hs)
  have hrecnd : records.Nodup := List.Nodup.of_map Record.uuid hD
  have htnd : (terminals records).Nodup :=
    List.Sublist.nodup (List.filter_sublist records) hrecnd
  have htie : ∀ pre mid post s2, terminals records = pre ++ t :: (mid ++ s2 :: post) →
      tsKey s2 < tsKey t := by
    intro pre mid post s2 hdec
    exact sorted_last_latest htnd ht pre mid post hdec
  have hg1 : (records.filter (fun r => r.uuid != "")).isEmpty = false := by
    rw [List.isEmpty_eq_false]
    exact List.ne_nil_of_mem (List.mem_filter.mpr ⟨htrec, by simp [htu]⟩)
  have hlatest : latest_terminal records = Option.some t := ht
  have hWdef : find_winning_path records =
      Option.some (walk_uuids (records.length + 1) records t.uuid) := by
    unfold find_winning_path
    rw [hg1, hT]
    simp only [Bool.false_eq_true, if_false]
    rw [hlatest]
  have hfuel :
      (records.filter (fun q => decide (depth q.uuid < depth t.uuid))).length + 1 ≤
        records.length + 1 := by
    have := List.length_filter_le (fun q => decide (depth q.uuid < depth t.uuid)) records
    omega
  have hwalk := walk_mem_iff records depth hN hD hP hA (records.length + 1) t.uuid t htrec
    rfl hfuel
  refine ⟨t, walk_uuids (records.length + 1) records t.uuid,
    hlatest, hWdef, htmem, hmax, htie, hwalk, ?_⟩
  intro t1 t2 _ h2 hall hlt
  rcases hall t htmem with rfl | rfl
  · exact absurd (hmax t2 h2) (not_le.mpr hlt)
  · rfl

/-- C1 witness: a three-record tree (one root, two terminals with distinct
timestamps). -/
theorem C1_resolver_selects_latest_terminal_witness :
    ∃ t W, latest_terminal [c1A, c1B, c1C] = Option.some t ∧
      find_winning_path [c1A, c1B, c1C] = Option.some W ∧
      t ∈ terminals [c1A, c1B, c1C] ∧
      (∀ s ∈ terminals [c1A, c1B, c1C], tsKey s ≤ tsKey t) ∧
      (∀ pre mid post s2, terminals [c1A, c1B, c1C] = pre ++ t :: (mid ++ s2 :: post) →
        tsKey s2 < tsKey t) ∧
      (∀ v, v ∈ W ↔ Ances [c1A, c1B, c1C] t.uuid v) ∧
      (∀ t1 t2, t1 ∈ terminals [c1A, c1B, c1C] → t2 ∈ terminals [c1A, c1B, c1C] →
        (∀ s ∈ terminals [c1A, c1B, c1C], s = t1 ∨ s = t2) → tsKey t1 < tsKey t2 → t = t2) :=
  C1_resolver_selects_latest_terminal [c1A, c1B, c1C] c1depth (by decide) (by decide)
    (by decide) (by decide) (by decide)

/-! ## Claim C4: assistant-turn aggregation -/

theorem is_assistant_with_elim {q : String} {r : Record}
    (h : is_assistant_with q r = true) :
    ∃ msg, r.message = Option.some msg ∧ msg.role = "assistant" ∧
      content_truthy msg.content = true ∧ r.requestId = q := by
  cases hm : r.message with
  | none => simp [is_assistant_with, hm] at h
  | some msg =>
    refine ⟨msg, rfl, ?_⟩
    simp only [is_assistant_with, hm, Bool.and_eq_true, beq_iff_eq] at h
    exact ⟨h.1.1, h.1.2, h.2⟩

theorem is_user_rec_elim {r : Record} (h : is_user_rec r = true) :
    ∃ msg, r.message = Option.some msg ∧ msg.role = "user" ∧
      content_truthy msg.content = true := by
  cases hm : r.message with
  | none => simp [is_user_rec, hm] at h
  | some msg =>
    refine ⟨msg, rfl, ?_⟩
    simp only [is_user_rec, hm, Bool.and_eq_true, beq_iff_eq] at h
    exact h

theorem agg_step_cont {q : String} {r : Record} (hq : q ≠ "")
    (hr : is_assistant_with q r = true) (T : List (String × List Record))
    (cur : List Record) :
    agg_step ⟨T, q, cur⟩ r = ⟨T, q, cur ++ [r]⟩ := by
  obtain ⟨msg, hm, hrole, hct, hreq⟩ := is_assistant_with_elim hr
  simp [agg_step, hm, hrole, hct, hreq, hq]

theorem agg_step_fresh {q : String} {r : Record}
    (hr : is_assistant_with q r = true) (T : List (String × List Record)) :
    agg_step ⟨T, "", []⟩ r = ⟨T, q, [r]⟩ := by
  obtain ⟨msg, hm, hrole, hct, hreq⟩ := is_assistant_with_elim hr
  by_cases hq : q = ""
  · simp [agg_step, hm, hrole, hct, hreq, hq, flush_assistant]
  · simp [agg_step, hm, hrole, hct, hreq, hq, flush_assistant]

theorem agg_step_switch {q1 q2 : String} {r : Record} (hne : q2 ≠ q1)
    (hr : is_assistant_with q2 r = true) (T : List (String × List Record))
    (c : Record) (cs : List Record) :
    agg_step ⟨T, q1, c :: cs⟩ r = ⟨T ++ [("assistant", c :: cs)], q2, [r]⟩ := by
  obtain ⟨msg, hm, hrole, hct, hreq⟩ := is_assistant_with_elim hr
  simp [agg_step, hm, hrole, hct, hreq, hne, flush_assistant]

theorem agg_step_user {r : Record} (hr : is_user_rec r = true)
    (T : List (String × List Record)) (q0 : String) (cur : List Record) :
    agg_step ⟨T, q0, cur⟩ r =
      ⟨(if cur.isEmpty then T else T ++ [("assistant", cur)]) ++ [("user", [r])],
        "", []⟩ := by
  obtain ⟨msg, hm, hrole, hct⟩ := is_user_rec_elim hr
  simp [agg_step, hm, hrole, hct, flush_assistant]

theorem agg_run_block {q : String} (hq : q ≠ "") :
    ∀ (block : List Record), (∀ r ∈ block, is_assistant_with q r = true) →
      ∀ (T : List (String × List Record)) (c : Record) (cs : List Record),
        List.foldl agg_step ⟨T, q, c :: cs⟩ block = ⟨T, q, c :: (cs ++ block)⟩ := by
  intro block
  induction block with
  | nil => intro _ T c cs; simp
  | cons r bl ih =>
    intro hall T c cs
    rw [List.foldl_cons, agg_step_cont hq (hall r (List.mem_cons_self r bl)) T (c :: cs)]
    have := ih (fun x hx => hall x (List.mem_cons_of_mem r hx)) T c (cs ++ [r])
    simpa using this

theorem agg_fresh_block {q : String} (hq : q ≠ "") (block : List Record)
    (hb : block ≠ []) (hall : ∀ r ∈ block, is_assistant_with q r = true)
    (T : List (String × List Record)) :
    List.foldl agg_step ⟨T, "", []⟩ block = ⟨T, q, block⟩ := by
  cases block with
  | nil => exact absurd rfl hb
  | cons r bl =>
    rw [List.foldl_cons, agg_step_fresh (hall r (List.mem_cons_self r bl)) T]
    have := agg_run_block hq bl (fun x hx => hall x (List.mem_cons_of_mem r hx)) T r []
    simpa using this

/-- C4: N consecutive assistant records (N ≥ 1) sharing one non-empty
request-correlation id form exactly one assistant turn; a change of
correlation id yields two separate assistant turns; a user record between
two same-id assistant blocks closes the first turn, so the blocks end up in
separate turns with the user turn between them. -/
theorem C4_correlated_assistant_records_one_turn (q1 q2 : String)
    (b1 b2 : List Record) (u : Record)
    (hq1 : q1 ≠ "") (hq2 : q2 ≠ "") (hne : q2 ≠ q1)
    (hb1 : b1 ≠ []) (hb2 : b2 ≠ [])
    (h1 : ∀ r ∈ b1, is_assistant_with q1 r = true)
    (h2 : ∀ r ∈ b2, is_assistant_with q2 r = true)
    (hu : is_user_rec u = true) :
    group_turns b1 = [("assistant", b1)] ∧
      group_turns (b1 ++ b2) = [("assistant", b1), ("assistant", b2)] ∧
      (∀ b3, b3 ≠ [] → (∀ r ∈ b3, is_assistant_with q1 r = true) →
        group_turns (b1 ++ u :: b3) =
          [("assistant", b1), ("user", [u]), ("assistant", b3)]) := by
  have hrun1 : List.foldl agg_step ⟨[], "", []⟩ b1 = ⟨[], q1, b1⟩ :=
    agg_fresh_block hq1 b1 hb1 h1 []
  have hb1e : b1.isEmpty = false := by
    rw [List.isEmpty_eq_false]
    exact hb1
  refine ⟨?_, ?_, ?_⟩
  · show (flush_assistant (List.foldl agg_step ⟨[], "", []⟩ b1)).turns = _
    rw [hrun1]
    simp [flush_assistant, hb1e]
  · show (flush_assistant (List.foldl agg_step ⟨[], "", []⟩ (b1 ++ b2))).turns = _
    rw [List.foldl_append, hrun1]
    obtain ⟨c1, cs1, hb1c⟩ : ∃ c1 cs1, b1 = c1 :: cs1 := by
      cases b1 with
      | nil => exact absurd rfl hb1
      | cons c1 cs1 => exact ⟨c1, cs1, rfl⟩
    obtain ⟨r2, bl2, hb2c⟩ : ∃ r2 bl2, b2 = r2 :: bl2 := by
      cases b2 with
      | nil => exact absurd rfl hb2
      | cons r2 bl2 => exact ⟨r2, bl2, rfl⟩
    have h2r2 : is_assistant_with q2 r2 = true := h2 r2 (by
      rw [hb2c]
      exact List.mem_cons_self r2 bl2)
    have h2bl : ∀ x ∈ bl2, is_assistant_with q2 x = true := fun x hx => h2 x (by
      rw [hb2c]
      exact List.mem_cons_of_mem r2 hx)
    rw [hb2c, hb1c, List.foldl_cons, agg_step_switch hne h2r2 [] c1 cs1]
    simp only [List.nil_append]
    have hrun2 := agg_run_block hq2 bl2 h2bl [("assistant", c1 :: cs1)] r2 []
    simp only [List.nil_append] at hrun2
    rw [hrun2]
    simp [flush_assistant]
  · intro b3 hb3 h3
    show (flush_assistant (List.foldl agg_step ⟨[], "", []⟩ (b1 ++ u :: b3))).turns = _
    rw [List.foldl_append, hrun1, List.foldl_cons, agg_step_user hu [] q1 b1]
    rw [hb1e]
    simp only [Bool.false_eq_true, if_false, List.nil_append]
    rw [agg_fresh_block hq1 b3 hb3 h3]
    have hb3e : b3.isEmpty = false := by
      rw [List.isEmpty_eq_false]
      exact hb3
    simp [flush_assistant, hb3e]

/-- C4 witness: two same-id assistant records collapse to one turn; a
different id or an intervening user record splits. -/
theorem C4_correlated_assistant_records_one_turn_witness :
    group_turns [c4a1, c4a2] = [("assistant", [c4a1, c4a2])] ∧
      group_turns ([c4a1, c4a2] ++ [c4a3]) =
        [("assistant", [c4a1, c4a2]), ("assistant", [c4a3])] ∧
      group_turns ([c4a1, c4a2] ++ c4u :: [c4a1]) =
        [("assistant", [c4a1, c4a2]), ("user", [c4u]), ("assistant", [c4a1])] := by
  have h := C4_correlated_assistant_records_one_turn "r1" "r2" [c4a1, c4a2] [c4a3] c4u
    (by decide) (by decide) (by decide) (by decide) (by decide)
    (by decide) (by decide) (by decide)
  exact ⟨h.1, h.2.1, h.2.2 [c4a1] (by decide) (by decide)⟩

/-! ## Claim C5: Q&A pairing and answer-only user turns -/

theorem is_meaningful_empty : is_meaningful "" = false := by decide

/-- C5 counterexample: a later tool result addressed to the question's
invocation id exists (its content is `"ok"`), yet the produced Q&A block's
answer is null and the rendered block shows the "[No answer recorded]"
marker — the claim's "matching result implies non-null answer" fails
because `parse_ask_answer` cannot parse `"ok"`. -/
theorem C5_matching_result_null_answer_cex :
    build_messages "/home/u"
        [ask_rec "q1" cqin Option.none, result_rec "q1" (ResultContent.str "ok")] =
      [asst_qa_msg cqin Option.none Option.none] ∧
    parse_ask_answer (ResultContent.str "ok") = Option.none ∧
    (format_qa_lines { questions := cqin.questions, answer := Option.none }).getLast? =
      Option.some "> **Answer:** [No answer recorded]" := by
  refine ⟨?_, by decide, by decide⟩
  decide

/-- C5 (amended): the Q&A block built for an invocation carries exactly the
parsed answer of the later matching tool result (non-null whenever the
parser extracts an answer), is null when no result exists, renders the
explicit "[No answer recorded]" marker when null, and the user record
consisting solely of that tool result is absent from the message sequence
(both pipeline equations produce no user message). -/
theorem C5_question_answer_blocks (home q : String) (qin : ToolInput)
    (c : ResultContent) (ts : Option String) :
    build_messages home [ask_rec q qin ts, result_rec q c] =
      [asst_qa_msg qin ts (parse_ask_answer c)] ∧
    build_messages home [ask_rec q qin ts] = [asst_qa_msg qin ts Option.none] ∧
    (∀ qa : QA, qa.answer = Option.none →
      (format_qa_lines qa).getLast? = Option.some "> **Answer:** [No answer recorded]") ∧
    (∀ (qa : QA) (a : String), qa.answer = Option.some a → a ≠ "" →
      (format_qa_lines qa).getLast? = Option.some ("> **Answer:** " ++ a)) := by
  refine ⟨?_, ?_, ?_, ?_⟩
  · simp [build_messages, collect_ask, phase1_record, phase1_part, dmem, dlookup,
      group_turns, agg_step, flush_assistant, content_truthy, build_assistant,
      build_user, asst_record_step, asst_part_step, generate_tool_annot,
      head_timestamp, ask_rec, result_rec, asst_qa_msg, pyJoin, is_meaningful_empty]
  · simp [build_messages, collect_ask, phase1_record, phase1_part, dmem, dlookup,
      group_turns, agg_step, flush_assistant, content_truthy, build_assistant,
      build_user, asst_record_step, asst_part_step, generate_tool_annot,
      head_timestamp, ask_rec, asst_qa_msg, pyJoin, is_meaningful_empty]
  · intro qa hans
    simp [format_qa_lines, hans, List.getLast?_append]
  · intro qa a hans ha
    simp [format_qa_lines, hans, ha, List.getLast?_append]

/-- C5 witness: concrete instantiation (a decline-style result that parses,
plus the marker facts at concrete Q&A blocks). -/
theorem C5_question_answer_blocks_witness :
    (build_messages "/home/u"
        [ask_rec "q1" cqin Option.none,
          result_rec "q1" (ResultContent.str "User doesn't want to proceed")] =
      [asst_qa_msg cqin Option.none
        (parse_ask_answer (ResultContent.str "User doesn't want to proceed"))]) ∧
    build_messages "/home/u" [ask_rec "q1" cqin Option.none] =
      [asst_qa_msg cqin Option.none Option.none] ∧
    (format_qa_lines { questions := cqin.questions, answer := Option.none }).getLast? =
      Option.some "> **Answer:** [No answer recorded]" ∧
    (format_qa_lines { questions := cqin.questions, answer := Option.some "yes" }).getLast? =
      Option.some ("> **Answer:** " ++ "yes") := by
  have h := C5_question_answer_blocks "/home/u" "q1" cqin
    (ResultContent.str "User doesn't want to proceed") Option.none
  exact ⟨h.1, h.2.1, h.2.2.1 _ rfl, h.2.2.2 _ "yes" rfl (by decide)⟩

/-! ## Claim C6: the 200-line write-capture threshold -/

set_option maxRecDepth 8000 in
/-- C6: a `Write` invocation's content is captured verbatim iff it is
non-empty and at most 200 lines (`count('\\n') + 1`); in particular content
of exactly 200 newline-joined lines is captured, 201 lines is not, and
empty content is not — in those cases the turn still carries the `Wrote:`
annotation but no captured content. -/
theorem C6_write_capture_iff_at_most_200_lines (home tid fp s : String)
    (ts : Option String) :
    build_messages home [write_rec tid fp s ts] =
      [{ role := "assistant", text := "", timestamp := ts,
         tool_annots := ["Wrote: " ++ shorten_path home fp],
         question_answers := [],
         write_contents :=
           if write_captured s then
             [{ file_path := fp, content := s, line_count := write_line_count s }]
           else [] }] ∧
    write_captured (pyJoin "\n" (List.replicate 200 "x")) = true ∧
    write_captured (pyJoin "\n" (List.replicate 201 "x")) = false ∧
    write_captured "" = false := by
  refine ⟨?_, by decide, by decide, by decide⟩
  by_cases hs : s = ""
  · have hcap : write_captured s = false := by
      subst hs
      decide
    rw [hcap]
    subst hs
    simp [build_messages, collect_ask, phase1_record, phase1_part,
      group_turns, agg_step, flush_assistant, content_truthy, build_assistant,
      build_user, asst_record_step, asst_part_step, generate_tool_annot,
      head_timestamp, write_rec, pyJoin, is_meaningful_empty]
  · by_cases hle : s.data.count '\n' + 1 ≤ 200
    · have hcap : write_captured s = true := by
        simp [write_captured, write_line_count, hs, hle]
      rw [hcap]
      have hwlc : write_line_count s = s.data.count '\n' + 1 := by
        simp [write_line_count, hs]
      rw [hwlc]
      simp [build_messages, collect_ask, phase1_record, phase1_part,
        group_turns, agg_step, flush_assistant, content_truthy, build_assistant,
        build_user, asst_record_step, asst_part_step, generate_tool_annot,
        head_timestamp, write_rec, pyJoin, is_meaningful_empty, hs, hle,
        bne_iff_ne]
    · have hcap : write_captured s = false := by
        simp [write_captured, write_line_count, hs, hle]
      rw [hcap]
      simp [build_messages, collect_ask, phase1_record, phase1_part,
        group_turns, agg_step, flush_assistant, content_truthy, build_assistant,
        build_user, asst_record_step, asst_part_step, generate_tool_annot,
        head_timestamp, write_rec, pyJoin, is_meaningful_empty, hs, hle,
        bne_iff_ne]

/-! ## Claim C7: the loader's running scalars -/

theorem getLast?_cons_or {α : Type} (a : α) (l : List α) :
    (a :: l).getLast? = l.getLast?.or (Option.some a) := by
  rw [show a :: l = [a] ++ l from rfl, List.getLast?_append]
  simp

theorem meta_foldl : ∀ (records : List Record) (acc : MetaAcc),
    List.foldl meta_step acc records =
      { session_id := ((records.filterMap Record.sessionId).getLast?).or acc.session_id,
        project_path := ((records.filterMap Record.cwd).getLast?).or acc.project_path,
        last_timestamp := ((records.filterMap Record.timestamp).getLast?).or acc.last_timestamp } := by
  intro records
  induction records with
  | nil => intro acc; simp
  | cons r l ih =>
    intro acc
    rw [List.foldl_cons, ih]
    cases hs : r.sessionId <;> cases hc : r.cwd <;> cases ht : r.timestamp <;>
      simp [meta_step, hs, hc, ht, List.filterMap_cons, getLast?_cons_or,
        Option.or_assoc]

/-- C7 counterexample: a record whose `sessionId` key holds the empty
string overwrites the earlier non-empty value `"A"`, so the extracted
session identifier is not the last non-empty value seen; the `or`-fallback
then yields the file stem. -/
theorem C7_empty_session_overwrites_cex :
    (extract_meta [c7r1, c7r2]).session_id = Option.some "" ∧
      (extract_meta [c7r1, c7r2]).session_id ≠ Option.some "A" ∧
      final_session_id (extract_meta [c7r1, c7r2]) "stem" = "stem" := by
  decide

/-- C7 (amended): in one pass the loader keeps, for each of the three
scalars, the value of the key's last occurrence in file order — whatever
that value is, an empty session identifier included (the session identifier
then falls back to the file stem at the end); in particular the
last-activity timestamp is the last occurrence, not necessarily the
maximum. -/
theorem C7_loader_scalars_last_occurrence (records : List Record) (stem : String) :
    (extract_meta records).session_id = (records.filterMap Record.sessionId).getLast? ∧
      (extract_meta records).project_path = (records.filterMap Record.cwd).getLast? ∧
      (extract_meta records).last_timestamp = (records.filterMap Record.timestamp).getLast? ∧
      final_session_id (extract_meta records) stem =
        (match (records.filterMap Record.sessionId).getLast? with
         | Option.some v => if v ≠ "" then v else stem
         | Option.none => stem) := by
  have h := meta_foldl records {}
  rw [extract_meta, h]
  refine ⟨by simp, by simp, by simp, ?_⟩
  cases (records.filterMap Record.sessionId).getLast? <;> simp [final_session_id]

/-! ## Claim C8: export target selection -/

/-- C8: the selection considers exactly the non-`agent-` stems that the
identifier matches exactly or prefixes (an exact match is a prefix match,
so one membership test covers both); no match reports not-found with no
document, more than one match reports the full candidate list with no
document, and a unique match selects that log. -/
theorem C8_export_target_selection (stems : List String) (sid : String) :
    (∀ stem, stem ∈ select_matches stems sid ↔
      stem ∈ stems ∧ py_startswith stem "agent-" = false ∧
        (stem = sid ∨ py_startswith stem sid = true)) ∧
      (∀ stem, stem = sid → py_startswith stem sid = true) ∧
      (select_matches stems sid = [] → export_select stems sid = ExportSel.notFound) ∧
      (∀ m1 m2 ms, select_matches stems sid = m1 :: m2 :: ms →
        export_select stems sid = ExportSel.ambiguous (m1 :: m2 :: ms)) ∧
      (∀ m, select_matches stems sid = [m] →
        export_select stems sid = ExportSel.selected m) := by
  refine ⟨?_, ?_, ?_, ?_, ?_⟩
  · intro stem
    simp only [select_matches, List.mem_filter, Bool.and_eq_true, Bool.or_eq_true,
      Bool.not_eq_true', beq_iff_eq, and_assoc]
  · rintro stem rfl
    simp [py_startswith, List.isPrefixOf_iff_prefix]
  · intro h
    simp [export_select, h]
  · intro m1 m2 ms h
    simp [export_select, h]
  · intro m h
    simp [export_select, h]

/-- C8 witness: an ambiguous prefix, a no-match identifier (its only prefix
extension is an `agent-` stem, which selection skips), and a unique
prefix. -/
theorem C8_export_target_selection_witness :
    export_select ["abc", "abd", "agent-abc", "xyz"] "ab" =
        ExportSel.ambiguous ["abc", "abd"] ∧
      export_select ["abc", "abd", "agent-abc", "xyz"] "agent-abc" = ExportSel.notFound ∧
      export_select ["abc", "abd", "agent-abc", "xyz"] "x" = ExportSel.selected "xyz" :=
  ⟨(C8_export_target_selection ["abc", "abd", "agent-abc", "xyz"] "ab").2.2.2.1
      "abc" "abd" [] (by decide),
    (C8_export_target_selection ["abc", "abd", "agent-abc", "xyz"] "agent-abc").2.2.1
      (by decide),
    (C8_export_target_selection ["abc", "abd", "agent-abc", "xyz"] "x").2.2.2.2
      "xyz" (by decide)⟩

/-! ## Claim C9: deterministic rendering -/

/-- C9: rendering is deterministic — the renderer is a pure function of the
resolved turn sequence and header metadata, so two runs on the same input
produce byte-identical documents; no wall-clock-dependent content exists
beyond the supplied header timestamp (see `render_conversation`, which
takes no other input). -/
theorem C9_render_deterministic (home : String) (c1 c2 : Conv) (h : c1 = c2) :
    render_conversation home c1 = render_conversation home c2 := by
  rw [h]

/-- C9 witness: two renders of a concrete conversation coincide. -/
theorem C9_render_deterministic_witness :
    render_conversation "/home/u" c9conv = render_conversation "/home/u" c9conv :=
  C9_render_deterministic "/home/u" c9conv c9conv rfl

end FindConv
